import Mathlib

/-!
Verification of the securenav crime-CSV API (src/main.py) against its
natural-language specification.

The Python source is shallowly embedded: pandas DataFrame columns become
lists of records, machine floats become exact rationals, datetimes become a
seven-field calendar structure, and the process-global memoized DataFrame
becomes explicit state passing.  Fallible endpoints return `Except`.
External library behaviour (pandas `to_datetime`) is abstracted as a
function parameter wherever a theorem quantifies over it; where a concrete
value is needed it is modelled explicitly (see `pdModel`).
-/

namespace SecureNav

/-- A calendar timestamp, the embedding of a Python `datetime` /
pandas `Timestamp` value (naive, microsecond precision). -/
structure DateTime where
  year : ℕ
  month : ℕ
  day : ℕ
  hour : ℕ
  minute : ℕ
  second : ℕ
  usec : ℕ
deriving DecidableEq, Repr

/-- Mixed-radix encoding of a timestamp; on calendar-valid values its order
is chronological order, which is how `_dt` values compare in pandas. -/
def DateTime.key (d : DateTime) : ℕ :=
  (((((d.year * 13 + d.month) * 32 + d.day) * 24 + d.hour) * 60 + d.minute) * 60
      + d.second) * 1000000 + d.usec

/-- One CSV cell after `pd.read_csv`: either missing (NaN), a string, or a
number.  `read_csv` turns empty fields into NaN, so a loaded text cell is
never the empty string; theorems that need this carry it as a hypothesis. -/
inductive Cell where
  | missing
  | text (s : String)
  | num (q : ℚ)
deriving DecidableEq, Repr

/-- Embedding of Python `str(x)` / pandas `.astype(str)` on one cell: the
float NaN stringifies to `"nan"`.  The exact digits of numeric reprs are
irrelevant to every claim; only non-emptiness and equality matter. -/
def pyStr : Cell → String
  | .missing => "nan"
  | .text s => s
  | .num q => toString q

/-- Embedding of `pd.to_numeric(col, errors="coerce")` on one cell.
Numeric CSV fields are already typed `Cell.num` by `read_csv`;
non-numeric text coerces to NaN (absent). -/
def toNumeric : Cell → Option ℚ
  | .missing => none
  | .text _ => none
  | .num q => some q

/-- The eight semantic roles of the `schema` dict in src/main.py. -/
inductive Role where
  | lat
  | lng
  | date
  | category
  | description
  | id
  | city
  | state
deriving DecidableEq, Repr

/-- The priority-ordered candidate raw-name lists of `_auto_map_columns`
(src/main.py lines 70-77), verbatim. -/
def roleCandidates : Role → List String
  | .lat => ["latitude", "lat", "y"]
  | .lng => ["longitude", "lon", "lng", "x"]
  | .date => ["date", "datetime", "occurred_on", "timestamp", "reported_date", "reported_at"]
  | .category => ["category", "offense", "crime_type", "offense_type", "type", "ucr", "incident_type"]
  | .description => ["description", "details", "summary", "narrative", "offense_description", "incident_description"]
  | .id => ["id", "incident_id", "case_number", "case_id", "event_number"]
  | .city => ["city", "municipality", "jurisdiction"]
  | .state => ["state", "province", "region"]

/-- ASCII case folding on one character, the behaviour of Python's
`str.lower` (and Lean's `Char.toLower`) on the ASCII range where all
candidate names live. -/
def lowerChar (c : Char) : Char :=
  if 65 ≤ c.toNat ∧ c.toNat ≤ 90 then Char.ofNat (c.toNat + 32) else c

/-- Python `str.lower()` (ASCII range). -/
def lowerStr (s : String) : String :=
  ⟨s.data.map lowerChar⟩

/-- Embedding of the `columns_lower` dict lookup: the comprehension
`{c.lower(): c for c in df.columns}` lets a later column overwrite an
earlier one sharing the same lowercase form, so lookup returns the last
matching original-case column name. -/
def dictLower (cols : List String) (n : String) : Option String :=
  cols.reverse.find? (fun c => lowerStr c == n)

/-- Embedding of the `pick` helper of `_auto_map_columns`: first candidate
present (case-insensitively) among the column names wins. -/
def pick (cols : List String) : List String → Option String
  | [] => none
  | n :: rest =>
    match dictLower cols n with
    | some c => some c
    | none => pick cols rest

/-- Embedding of `_auto_map_columns` (src/main.py lines 60-88): the role
mapping as a function from roles to an optional raw column name. -/
def autoMapColumns (cols : List String) (r : Role) : Option String :=
  pick cols (roleCandidates r)

/-- Format directives appearing in `_maybe_parse_date`'s format list. -/
inductive FTok where
  | lit (c : Char)
  | Y
  | m2
  | d2
  | H
  | M
  | S
  | y2
  | f
deriving DecidableEq, Repr

/-- Consume exactly `n` digits from the front, returning their value. -/
def matchDigits : ℕ → List Char → Option (ℕ × List Char)
  | 0, cs => some (0, cs)
  | _ + 1, [] => none
  | n + 1, c :: cs =>
    if c.isDigit then
      match matchDigits n cs with
      | some (v, rest) => some ((c.toNat - 48) * 10 ^ n + v, rest)
      | none => none
    else none

/-- A two-digit numeric alternative constrained to `[lo, hi]`. -/
def twoDigit (lo hi : ℕ) (cs : List Char) : List (ℕ × List Char) :=
  match matchDigits 2 cs with
  | some (v, rest) => if lo ≤ v ∧ v ≤ hi then [(v, rest)] else []
  | none => []

/-- A one-digit numeric alternative constrained to `[lo, hi]`. -/
def oneDigit (lo hi : ℕ) (cs : List Char) : List (ℕ × List Char) :=
  match matchDigits 1 cs with
  | some (v, rest) => if lo ≤ v ∧ v ≤ hi then [(v, rest)] else []
  | none => []

/-- The candidate matches of one `strptime` directive against the front of
the input, in the alternation order of CPython's `_strptime` regexes
(`%m` = `1[0-2]|0[1-9]|[1-9]`, `%d` = `3[01]|[12]\d|0[1-9]|[1-9]`,
`%H` = `2[0-3]|[0-1]\d|\d`, `%M`/`%S` = `[0-5]\d|\d`, `%Y` four digits,
`%y` two digits, `%f` one to six digits, greedy). -/
def alts : FTok → List Char → List (ℕ × List Char)
  | .lit _, _ => []
  | .Y, cs =>
    match matchDigits 4 cs with
    | some (v, rest) => [(v, rest)]
    | none => []
  | .m2, cs => twoDigit 1 12 cs ++ oneDigit 1 9 cs
  | .d2, cs => twoDigit 1 31 cs ++ oneDigit 1 9 cs
  | .H, cs => twoDigit 0 23 cs ++ oneDigit 0 9 cs
  | .M, cs => twoDigit 0 59 cs ++ oneDigit 0 9 cs
  | .S, cs => twoDigit 0 59 cs ++ oneDigit 0 9 cs
  | .y2, cs =>
    match matchDigits 2 cs with
    | some (v, rest) => [(v, rest)]
    | none => []
  | .f, cs =>
    [6, 5, 4, 3, 2, 1].foldr
      (fun n acc =>
        match matchDigits n cs with
        | some (v, rest) => (v * 10 ^ (6 - n), rest) :: acc
        | none => acc) []

/-- Record the parsed value of one directive into the timestamp under
construction.  `%y` uses CPython's pivot: 00-68 maps to 20xx, 69-99 to
19xx. -/
def applyTok (dt : DateTime) : FTok → ℕ → DateTime
  | .lit _, _ => dt
  | .Y, v => { dt with year := v }
  | .m2, v => { dt with month := v }
  | .d2, v => { dt with day := v }
  | .H, v => { dt with hour := v }
  | .M, v => { dt with minute := v }
  | .S, v => { dt with second := v }
  | .y2, v => { dt with year := if v ≤ 68 then 2000 + v else 1900 + v }
  | .f, v => { dt with usec := v }

/-- Run one format against the whole input with regex-style backtracking;
`strptime` errors on unconverted trailing data, so the input must be fully
consumed. -/
def runFmt : List FTok → List Char → DateTime → Option DateTime
  | [], [], dt => some dt
  | [], _ :: _, _ => none
  | .lit c :: toks, cs, dt =>
    match cs with
    | c2 :: rest => if c2 = c then runFmt toks rest dt else none
    | [] => none
  | tok :: toks, cs, dt =>
    (alts tok cs).findSome? (fun p => runFmt toks p.2 (applyTok dt tok p.1))

def isLeap (y : ℕ) : Bool :=
  y % 4 == 0 && (y % 100 != 0 || y % 400 == 0)

def daysInMonth (y m : ℕ) : ℕ :=
  if m = 2 then (if isLeap y then 29 else 28)
  else if m = 4 ∨ m = 6 ∨ m = 9 ∨ m = 11 then 30 else 31

/-- The range checks the `datetime` constructor performs; a failing check
raises inside `strptime`, which `_maybe_parse_date` catches, moving on to
the next format. -/
def validate (dt : DateTime) : Option DateTime :=
  if 1 ≤ dt.year ∧ dt.year ≤ 9999 ∧ 1 ≤ dt.month ∧ dt.month ≤ 12 ∧ 1 ≤ dt.day
      ∧ dt.day ≤ daysInMonth dt.year dt.month ∧ dt.hour ≤ 23 ∧ dt.minute ≤ 59
      ∧ dt.second ≤ 59 ∧ dt.usec ≤ 999999
  then some dt else none

/-- `datetime.strptime` with strptime's default fields (1900-01-01). -/
def strptime (fmt : List FTok) (s : String) : Option DateTime :=
  (runFmt fmt s.data ⟨1900, 1, 1, 0, 0, 0, 0⟩).bind validate

/-- The nine format patterns of `_maybe_parse_date` (src/main.py lines
38-48), verbatim and in order. -/
def fmtList : List (List FTok) :=
  [ [.Y, .lit '-', .m2, .lit '-', .d2]
  , [.Y, .lit '-', .m2, .lit '-', .d2, .lit ' ', .H, .lit ':', .M, .lit ':', .S]
  , [.m2, .lit '/', .d2, .lit '/', .Y]
  , [.m2, .lit '/', .d2, .lit '/', .Y, .lit ' ', .H, .lit ':', .M]
  , [.m2, .lit '/', .d2, .lit '/', .y2]
  , [.Y, .lit '/', .m2, .lit '/', .d2]
  , [.d2, .lit '-', .m2, .lit '-', .Y]
  , [.Y, .lit '-', .m2, .lit '-', .d2, .lit 'T', .H, .lit ':', .M, .lit ':', .S]
  , [.Y, .lit '-', .m2, .lit '-', .d2, .lit 'T', .H, .lit ':', .M, .lit ':', .S, .lit '.', .f] ]

/-- The format loop of `_maybe_parse_date`: first successful parse wins. -/
def tryFormats (s : String) : Option DateTime :=
  fmtList.findSome? (fun f => strptime f s)

/-- Embedding of `_maybe_parse_date` (src/main.py lines 36-58): the nine
formats in order against `str(s)`, then the permissive
`pd.to_datetime(s, errors="coerce")` fallback, abstracted as `P`. -/
def maybeParseDate (P : Cell → Option DateTime) (c : Cell) : Option DateTime :=
  match tryFormats (pyStr c) with
  | some d => some d
  | none => P c

/-- Modelled behaviour of the external `pd.to_datetime(_, errors="coerce")`
permissive parser on single values (dateutil / pandas format inference):
an ambiguous all-numeric date such as `"01-02-2020"` resolves month-first
(2020-01-02) under the default `dayfirst=False`; unambiguous strings are
modelled by the strict formats; missing and numeric scalars are modelled
as unparseable.  Only its value at the strings used in concrete theorems
matters. -/
def pdModel : Cell → Option DateTime
  | .missing => none
  | .num _ => none
  | .text s => if s = "01-02-2020" then some ⟨2020, 1, 2, 0, 0, 0, 0⟩ else tryFormats s

/-- One normalized record: the eight derived `_id/_dt/_cat/_desc/_lat/_lng/
_city/_state` columns of one row, as built by `_load_df`. -/
structure Rec where
  id : String
  timestamp : Option DateTime
  category : String
  description : String
  lat : Option ℚ
  lng : Option ℚ
  city : String
  state : String
deriving DecidableEq, Repr

/-- The raw CSV as `pd.read_csv` delivers it: a header row plus cell rows
aligned positionally with the header. -/
structure RawTable where
  cols : List String
  rows : List (List Cell)
deriving DecidableEq, Repr

/-- Look one row's cell up by raw column name (first matching header,
missing if the row is short or the column does not exist). -/
def cellAt (cols : List String) (row : List Cell) (c : String) : Cell :=
  match cols.findIdx? (fun c2 => c2 == c) with
  | some i => row.getD i .missing
  | none => .missing

/-- The `schema["date"] and df[schema["date"]].notna().any()` guard of
src/main.py line 103: the date column is normalized only when mapped and
not entirely null; otherwise `_dt` is NaT everywhere. -/
def dateActiveTable (t : RawTable) (sch : Role → Option String) : Bool :=
  match sch Role.date with
  | some c => t.rows.any (fun row => !(cellAt t.cols row c == Cell.missing))
  | none => false

/-- Derive one normalized record from one raw row (src/main.py lines
102-141).  `P` is the external bulk parser `pd.to_datetime(col,
errors="coerce")` applied to the row's raw date cell: with
`errors="coerce"` that call returns NaT for unparseable elements instead
of raising, so the `except` fallback to `_maybe_parse_date` on line 107 is
unreachable on this path and each row's `_dt` is just `P` of its cell.
`idx` is the positional index (`df.index`), the id fallback. -/
def mkRec (P : Cell → Option DateTime) (sch : Role → Option String)
    (cols : List String) (dateActive : Bool) (idx : ℕ) (row : List Cell) : Rec :=
  ⟨ (match sch Role.id with
     | some c => pyStr (cellAt cols row c)
     | none => toString idx)
  , (if dateActive then
       match sch Role.date with
       | some c => P (cellAt cols row c)
       | none => none
     else none)
  , (match sch Role.category with
     | some c => pyStr (cellAt cols row c)
     | none => "")
  , (match sch Role.description with
     | some c => pyStr (cellAt cols row c)
     | none => "")
  , (match sch Role.lat with
     | some c => toNumeric (cellAt cols row c)
     | none => none)
  , (match sch Role.lng with
     | some c => toNumeric (cellAt cols row c)
     | none => none)
  , (match sch Role.city with
     | some c => pyStr (cellAt cols row c)
     | none => "")
  , (match sch Role.state with
     | some c => pyStr (cellAt cols row c)
     | none => "") ⟩

/-- Normalize all rows in order, tracking the positional index. -/
def buildRecs (P : Cell → Option DateTime) (sch : Role → Option String)
    (cols : List String) (dateActive : Bool) : ℕ → List (List Cell) → List Rec
  | _, [] => []
  | idx, row :: rest =>
    mkRec P sch cols dateActive idx row :: buildRecs P sch cols dateActive (idx + 1) rest

/-- Embedding of `_load_df`'s build step (src/main.py lines 90-143) once
the source file exists: infer the role mapping, then derive all records. -/
def loadStore (P : Cell → Option DateTime) (t : RawTable) : List Rec :=
  buildRecs P (autoMapColumns t.cols) t.cols (dateActiveTable t (autoMapColumns t.cols)) 0 t.rows

/-- The optional query-string filters of the `/incidents` endpoint; date
bounds arrive here already parsed (a malformed bound fails the request
with `InvalidArgument` before any filtering). -/
structure Filters where
  q : Option String
  category : Option String
  city : Option String
  state : Option String
  startDate : Option DateTime
  endDate : Option DateTime
  minLat : Option ℚ
  maxLat : Option ℚ
  minLng : Option ℚ
  maxLng : Option ℚ
deriving DecidableEq, Repr

/-- Decidable substring test on char lists.  `re.search` of a literal,
metacharacter-free pattern is exactly a substring search; the modelled
engine `reModel` interprets such patterns this way. -/
def isPrefixChars : List Char → List Char → Bool
  | [], _ => true
  | _ :: _, [] => false
  | a :: as, b :: bs => a = b && isPrefixChars as bs

def containsSub (needle : List Char) : List Char → Bool
  | [] => needle.isEmpty
  | h :: t => isPrefixChars needle (h :: t) || containsSub needle t

/-- The request-level error kinds: the three of §7, plus the uncaught
`re.error` an invalid text-search pattern raises out of `/incidents`
(surfaced by the framework as a plain server error, with no total or
page in the response). -/
inductive ApiError where
  | sourceNotFound
  | invalidArgument (msg : String)
  | noGeoData
  | reError
deriving DecidableEq, Repr

/-- Abstract model of the external regular-expression engine behind
`Series.str.contains(pat, na=False)`, whose default is `regex=True`: for
a pattern `pat`, `R pat = none` models `re.compile` raising `re.error`,
and `R pat = some m` models a successful compile, with `m s` the truth
of `re.search(pat, s)`.  Theorems about `/incidents` quantify over the
engine. -/
def ReEngine : Type :=
  String → Option (String → Bool)

/-- The text-filter mask of src/main.py lines 186-188: `if q:` makes an
absent or empty query unconstraining; otherwise the lowercased query is
compiled as a regex — an invalid pattern raises `re.error`, failing the
whole request before any total is computed — and a record matches when
the pattern is found in its lowercased description or its lowercased
category. -/
def qCompile (R : ReEngine) (q : Option String) : Option (Rec → Bool) :=
  match q with
  | none => some (fun _ => true)
  | some s =>
    if s = "" then some (fun _ => true)
    else
      match R (lowerStr s) with
      | none => none
      | some m => some (fun r => m (lowerStr r.description) || m (lowerStr r.category))

/-- A concretely modelled engine for closed theorems: `"("` is an invalid
pattern (`re.compile` raises `re.error` on an unbalanced parenthesis),
and other patterns are modelled as literals searched as substrings —
faithful for the metacharacter-free patterns the concrete theorems
use. -/
def reModel : ReEngine :=
  fun pat => if pat = "(" then none else some (fun s => containsSub pat.data s.data)

/-- The record predicate the compiled query "nan" induces:
`qCompile reModel (some "nan")` definitionally yields this matcher. -/
def mNan : Rec → Bool :=
  fun r =>
    containsSub (lowerStr "nan").data (lowerStr r.description).data
      || containsSub (lowerStr "nan").data (lowerStr r.category).data

/-- `category`/`city`/`state` filter: case-insensitive exact match;
an empty string is falsy and inactive. -/
def strMatch (pat : Option String) (v : String) : Bool :=
  match pat with
  | none => true
  | some s => if s = "" then true else lowerStr v == lowerStr s

/-- `df["_dt"] >= sd`: a NaT timestamp compares false. -/
def dateGe (ts : Option DateTime) (b : Option DateTime) : Bool :=
  match b with
  | none => true
  | some sd =>
    match ts with
    | some t => sd.key ≤ t.key
    | none => false

/-- `df["_dt"] <= ed`: a NaT timestamp compares false. -/
def dateLe (ts : Option DateTime) (b : Option DateTime) : Bool :=
  match b with
  | none => true
  | some ed =>
    match ts with
    | some t => t.key ≤ ed.key
    | none => false

/-- `df["_lat"] >= v` and friends: a NaN coordinate compares false. -/
def numGe (x : Option ℚ) (b : Option ℚ) : Bool :=
  match b with
  | none => true
  | some v =>
    match x with
    | some q => v ≤ q
    | none => false

def numLe (x : Option ℚ) (b : Option ℚ) : Bool :=
  match b with
  | none => true
  | some v =>
    match x with
    | some q => q ≤ v
    | none => false

/-- The conjunction of all active `/incidents` filters (src/main.py lines
184-217), given the compiled text-search mask `m` (see `qCompile`). -/
def matchesFilters (m : Rec → Bool) (f : Filters) (r : Rec) : Bool :=
  m r
    && strMatch f.category r.category
    && strMatch f.city r.city
    && strMatch f.state r.state
    && dateGe r.timestamp f.startDate
    && dateLe r.timestamp f.endDate
    && numGe r.lat f.minLat
    && numLe r.lat f.maxLat
    && numGe r.lng f.minLng
    && numLe r.lng f.maxLng

/-- Comparison key for `_dt` sorting (only ever used on present values). -/
def tsKey (r : Rec) : ℕ :=
  match r.timestamp with
  | some d => d.key
  | none => 0

/-- The `_dt` comparison relation both sort directions use. -/
def tsLe (a b : Rec) : Prop :=
  tsKey a ≤ tsKey b

instance : DecidableRel tsLe :=
  fun a b => Nat.decLe (tsKey a) (tsKey b)

instance : IsTotal Rec tsLe :=
  ⟨fun a b => Nat.le_total (tsKey a) (tsKey b)⟩

instance : IsTrans Rec tsLe :=
  ⟨fun _ _ _ => Nat.le_trans⟩

/-- `res.sort_values(by="_dt", ascending=True, na_position="last")`:
pandas `nargsort` stable-sorts the non-NaT rows ascending and appends
the NaT rows at the end in positional order. -/
def sortAsc (l : List Rec) : List Rec :=
  (l.filter (fun r => r.timestamp.isSome)).insertionSort tsLe
    ++ l.filter (fun r => r.timestamp.isNone)

/-- `ascending=False, na_position="last"`: pandas `nargsort` reverses the
non-NaT rows, sorts them ascending, and reverses the resulting indexer
again, so tied timestamps keep their original relative order in both
directions; the NaT rows go to the end. -/
def sortDesc (l : List Rec) : List Rec :=
  ((l.filter (fun r => r.timestamp.isSome)).reverse.insertionSort tsLe).reverse
    ++ l.filter (fun r => r.timestamp.isNone)

/-- The filtered-then-sorted frame `res` of `/incidents` just before
pagination (src/main.py lines 184-225), given the compiled text mask:
filter, then sort when `sort` is `date` or `-date`. -/
def sortedFor (m : Rec → Bool) (f : Filters) (sort : String) (recs : List Rec) : List Rec :=
  let res := recs.filter (matchesFilters m f)
  if sort = "date" then sortAsc res
  else if sort = "-date" then sortDesc res
  else res

/-- Embedding of the `/incidents` pipeline (src/main.py lines 184-228):
compile the text query (an invalid regex raises out of the request, so
no total is ever reported), then filter, sort, count, and
`iloc[offset : offset + limit]`. -/
def incidents (R : ReEngine) (f : Filters) (sort : String) (limit offset : ℕ)
    (recs : List Rec) : Except ApiError (ℕ × List Rec) :=
  match qCompile R f.q with
  | none => .error ApiError.reError
  | some m =>
    .ok ((sortedFor m f sort recs).length,
      ((sortedFor m f sort recs).drop offset).take limit)

/-- The total `/incidents` reports, when it reports one. -/
def totalOf (e : Except ApiError (ℕ × List Rec)) : Option ℕ :=
  match e with
  | .ok p => some p.1
  | .error _ => none

/-- The page `/incidents` returns, when the request succeeds. -/
def pageOf (e : Except ApiError (ℕ × List Rec)) : Option (List Rec) :=
  match e with
  | .ok p => some p.2
  | .error _ => none

/-- The `/stats` date-range filter (src/main.py lines 259-270): only the
two date bounds, same semantics as in `/incidents`. -/
def dateRangeFilt (sd ed : Option DateTime) (r : Rec) : Bool :=
  dateGe r.timestamp sd && dateLe r.timestamp ed

/-- Distinct keys of a list in first-seen order. -/
def dedupKeys {κ : Type} [DecidableEq κ] (l : List κ) : List κ :=
  l.foldl (fun acc k => if k ∈ acc then acc else acc ++ [k]) []

/-- Grouped sizes: one `(key, count)` pair per distinct key, the embedding
of `groupby(..., dropna=False).size()` / `value_counts()`. -/
def countsBy {α κ : Type} [DecidableEq κ] (key : α → κ) (l : List α) : List (κ × ℕ) :=
  (dedupKeys (l.map key)).map (fun k => (k, (l.filter (fun a => key a == k)).length))

def sumCounts {κ : Type} (l : List (κ × ℕ)) : ℕ :=
  (l.map (fun p => p.2)).sum

/-- `stats(by="year")` (src/main.py lines 277-289): drop NaT, group by
calendar year, sort ascending by year; all-NaT short-circuits to `[]`. -/
def statsYear (sd ed : Option DateTime) (recs : List Rec) : List (ℕ × ℕ) :=
  let res := recs.filter (dateRangeFilt sd ed)
  let dts := res.filterMap (fun r => r.timestamp)
  if dts.isEmpty then []
  else (countsBy (fun d => d.year) dts).insertionSort (fun a b => a.1 ≤ b.1)

/-- `stats(by="day")`: group present timestamps by calendar date. -/
def statsDay (sd ed : Option DateTime) (recs : List Rec) : List ((ℕ × ℕ × ℕ) × ℕ) :=
  let res := recs.filter (dateRangeFilt sd ed)
  let dts := res.filterMap (fun r => r.timestamp)
  if dts.isEmpty then []
  else (countsBy (fun d => (d.year, d.month, d.day)) dts).insertionSort
    (fun a b => (a.1.1 * 13 + a.1.2.1) * 32 + a.1.2.2 ≤ (b.1.1 * 13 + b.1.2.1) * 32 + b.1.2.2)

/-- `stats(by="month")`: group present timestamps by year-month. -/
def statsMonth (sd ed : Option DateTime) (recs : List Rec) : List ((ℕ × ℕ) × ℕ) :=
  let res := recs.filter (dateRangeFilt sd ed)
  let dts := res.filterMap (fun r => r.timestamp)
  if dts.isEmpty then []
  else (countsBy (fun d => (d.year, d.month)) dts).insertionSort
    (fun a b => a.1.1 * 13 + a.1.2 ≤ b.1.1 * 13 + b.1.2)

/-- `stats(by="category")` (src/main.py lines 274-276): group the whole
filtered set by `_cat` (groupby sorts keys, then counts sort descending). -/
def statsCategory (sd ed : Option DateTime) (recs : List Rec) : List (String × ℕ) :=
  let res := recs.filter (dateRangeFilt sd ed)
  ((countsBy (fun r => r.category) res).insertionSort
      (fun a b => a.1 ≤ b.1)).insertionSort (fun a b => b.2 ≤ a.2)

/-- `stats(by="city")`. -/
def statsCity (sd ed : Option DateTime) (recs : List Rec) : List (String × ℕ) :=
  let res := recs.filter (dateRangeFilt sd ed)
  ((countsBy (fun r => r.city) res).insertionSort
      (fun a b => a.1 ≤ b.1)).insertionSort (fun a b => b.2 ≤ a.2)

/-- `stats(by="state")`. -/
def statsState (sd ed : Option DateTime) (recs : List Rec) : List (String × ℕ) :=
  let res := recs.filter (dateRangeFilt sd ed)
  ((countsBy (fun r => r.state) res).insertionSort
      (fun a b => a.1 ≤ b.1)).insertionSort (fun a b => b.2 ≤ a.2)

/-- A grouped-stats key on the wire: strings for category/city/state/day/
month, an integer for year. -/
inductive StatKey where
  | str (s : String)
  | int (n : ℕ)
deriving DecidableEq, Repr

/-- The `by` dispatch of `/stats` (src/main.py lines 274-297); an unknown
key fails with `InvalidArgument`. -/
def statsOp (byk : String) (sd ed : Option DateTime) (recs : List Rec) :
    Except ApiError (List (StatKey × ℕ)) :=
  if byk = "category" then
    .ok ((statsCategory sd ed recs).map (fun p => (StatKey.str p.1, p.2)))
  else if byk = "day" then
    .ok ((statsDay sd ed recs).map (fun p =>
      (StatKey.str (toString p.1.1 ++ "-" ++ toString p.1.2.1 ++ "-" ++ toString p.1.2.2), p.2)))
  else if byk = "month" then
    .ok ((statsMonth sd ed recs).map (fun p =>
      (StatKey.str (toString p.1.1 ++ "-" ++ toString p.1.2), p.2)))
  else if byk = "year" then
    .ok ((statsYear sd ed recs).map (fun p => (StatKey.int p.1, p.2)))
  else if byk = "city" then
    .ok ((statsCity sd ed recs).map (fun p => (StatKey.str p.1, p.2)))
  else if byk = "state" then
    .ok ((statsState sd ed recs).map (fun p => (StatKey.str p.1, p.2)))
  else .error (ApiError.invalidArgument "Invalid by parameter")

/-- One GeoJSON point feature (geometry coordinates are [lng, lat]). -/
structure Feature where
  lng : ℚ
  lat : ℚ
  id : String
  date : Option DateTime
  category : String
  description : String
  city : String
  state : String
deriving DecidableEq, Repr

/-- Embedding of `/geojson` (src/main.py lines 301-327): fails when the
`_lat` column is entirely NaN or the `_lng` column is entirely NaN; else
emits one feature per row whose lat and lng are both present. -/
def geojson (recs : List Rec) : Except ApiError (List Feature) :=
  if recs.all (fun r => r.lat.isNone) || recs.all (fun r => r.lng.isNone) then
    .error ApiError.noGeoData
  else
    .ok (recs.filterMap (fun r =>
      match r.lat, r.lng with
      | some la, some lo =>
        some ⟨lo, la, r.id, r.timestamp, r.category, r.description, r.city, r.state⟩
      | _, _ => none))

/-- Python `int(q)` on a rational: truncation toward zero. -/
def pyInt (q : ℚ) : ℤ :=
  q.num / q.den

/-- One returned heatmap cell: the cell-center coordinates and count. -/
structure HeatCell where
  lat : ℚ
  lng : ℚ
  count : ℕ
deriving DecidableEq, Repr

/-- The `/heatmap` response body: bin count, the computed bounds when the
grid branch ran (the degenerate and empty branches return none), and the
grid of non-empty cells. -/
structure HeatOut where
  bins : ℕ
  bounds : Option (ℚ × ℚ × ℚ × ℚ)
  grid : List HeatCell
deriving DecidableEq, Repr

/-- One `grid[key] = grid.get(key, 0) + 1` step on the insertion-ordered
dict, embedded as an association list. -/
def bumpGrid (g : List ((ℤ × ℤ) × ℕ)) (k : ℤ × ℤ) : List ((ℤ × ℤ) × ℕ) :=
  if g.any (fun p => p.1 == k) then
    g.map (fun p => if p.1 == k then (p.1, p.2 + 1) else p)
  else g ++ [(k, 1)]

/-- Embedding of `/heatmap` (src/main.py lines 329-368).  Faithful to the
source, including its independent `dropna()` of the two coordinate
columns followed by `zip(lat, lng)`, which pairs the i-th present
latitude with the i-th present longitude regardless of which records they
came from, and the degenerate branch's `count = len(lat)`. -/
def heatmap (bins : ℕ) (recs : List Rec) : Except ApiError HeatOut :=
  if recs.all (fun r => r.lat.isNone) || recs.all (fun r => r.lng.isNone) then
    .error ApiError.noGeoData
  else
    match recs.filterMap (fun r => r.lat), recs.filterMap (fun r => r.lng) with
    | [], _ => .ok ⟨bins, none, []⟩
    | _ :: _, [] => .ok ⟨bins, none, []⟩
    | la0 :: latRest, lo0 :: lngRest =>
      let lat := la0 :: latRest
      let lng := lo0 :: lngRest
      let latMin := latRest.foldl min la0
      let latMax := latRest.foldl max la0
      let lngMin := lngRest.foldl min lo0
      let lngMax := lngRest.foldl max lo0
      if latMin = latMax ∨ lngMin = lngMax then
        .ok ⟨bins, none, [⟨latMin, lngMin, lat.length⟩]⟩
      else
        let latStep := (latMax - latMin) / bins
        let lngStep := (lngMax - lngMin) / bins
        let cells := (lat.zip lng).foldl
          (fun g p =>
            bumpGrid g
              (min (pyInt ((p.1 - latMin) / latStep)) ((bins : ℤ) - 1),
               min (pyInt ((p.2 - lngMin) / lngStep)) ((bins : ℤ) - 1))) []
        .ok ⟨bins, some (latMin, latMax, lngMin, lngMax),
          cells.map (fun p =>
            ⟨latMin + ((p.1.1 : ℚ) + 1/2) * latStep,
             lngMin + ((p.1.2 : ℚ) + 1/2) * lngStep, p.2⟩)⟩

/-- The grid of a heatmap response (empty on the error branch); lets
concrete evaluations avoid decidable equality on `Except`. -/
def gridOf (e : Except ApiError HeatOut) : List HeatCell :=
  match e with
  | .ok o => o.grid
  | .error _ => []

/-- Whether an endpoint result is a success. -/
def okB {α : Type} (e : Except ApiError α) : Bool :=
  match e with
  | .ok _ => true
  | .error _ => false

/-- The process-global memoized DataFrame `_df` (src/main.py line 24). -/
structure ServerState where
  cached : Option (List Rec)
deriving DecidableEq, Repr

/-- Embedding of `get_df` + `_load_df` (src/main.py lines 90-149) as a
state transition.  `source` is the backing CSV: `none` means
`os.path.exists(CSV_PATH)` is false, in which case `_load_df` raises
before touching `_df`, so the memoized store stays unpopulated; on
success `_df` is assigned only once the whole store is built. -/
def getDf (P : Cell → Option DateTime) (source : Option RawTable) (st : ServerState) :
    Except ApiError (List Rec) × ServerState :=
  match st.cached with
  | some df => (.ok df, st)
  | none =>
    match source with
    | none => (.error ApiError.sourceNotFound, st)
    | some t => (.ok (loadStore P t), ⟨some (loadStore P t)⟩)

/-- `/columns` (modelled output: the row count it reports). -/
def columnsEp (P : Cell → Option DateTime) (source : Option RawTable) (st : ServerState) :
    Except ApiError ℕ × ServerState :=
  match getDf P source st with
  | (.error e, st2) => (.error e, st2)
  | (.ok df, st2) => (.ok df.length, st2)

/-- `/incidents` endpoint wrapper around the store; `R` is the regex
engine the text filter compiles against. -/
def incidentsEp (P : Cell → Option DateTime) (R : ReEngine) (source : Option RawTable)
    (st : ServerState) (f : Filters) (sort : String) (limit offset : ℕ) :
    Except ApiError (ℕ × List Rec) × ServerState :=
  match getDf P source st with
  | (.error e, st2) => (.error e, st2)
  | (.ok df, st2) => (incidents R f sort limit offset df, st2)

/-- `/stats` endpoint wrapper around the store. -/
def statsEp (P : Cell → Option DateTime) (source : Option RawTable) (st : ServerState)
    (byk : String) (sd ed : Option DateTime) :
    Except ApiError (List (StatKey × ℕ)) × ServerState :=
  match getDf P source st with
  | (.error e, st2) => (.error e, st2)
  | (.ok df, st2) => (statsOp byk sd ed df, st2)

/-- `/geojson` endpoint wrapper around the store. -/
def geojsonEp (P : Cell → Option DateTime) (source : Option RawTable) (st : ServerState) :
    Except ApiError (List Feature) × ServerState :=
  match getDf P source st with
  | (.error e, st2) => (.error e, st2)
  | (.ok df, st2) => (geojson df, st2)

/-- `/heatmap` endpoint wrapper around the store. -/
def heatmapEp (P : Cell → Option DateTime) (source : Option RawTable) (st : ServerState)
    (bins : ℕ) : Except ApiError HeatOut × ServerState :=
  match getDf P source st with
  | (.error e, st2) => (.error e, st2)
  | (.ok df, st2) => (heatmap bins df, st2)

/-- A record with both coordinates present (the spec's aggregation
population for the geo views). -/
def bothPresent (r : Rec) : Bool :=
  r.lat.isSome && r.lng.isSome

/-- Spec-side projection of one both-present record to its feature. -/
def featOf (r : Rec) : Feature :=
  ⟨r.lng.getD 0, r.lat.getD 0, r.id, r.timestamp, r.category, r.description, r.city, r.state⟩

/-- Spec-side form of the geojson feature list: one feature per record
with both coordinates present, in store order. -/
def geoFeatures (recs : List Rec) : List Feature :=
  (recs.filter bothPresent).map featOf

/-- A store record with only coordinates set (shorthand for geo tests). -/
def geoRec (la lo : Option ℚ) : Rec :=
  ⟨"", none, "", "", la, lo, "", ""⟩

/-- Three records: one with both coordinates, one latitude-only, one
longitude-only.  Exercises the misaligned `zip(lat.dropna(),
lng.dropna())` in `/heatmap`. -/
def recsZip : List Rec :=
  [geoRec (some 0) (some 0), geoRec (some 1) none, geoRec none (some 1)]

/-- Two records sharing one latitude, the second lacking a longitude.
Exercises the degenerate branch's `count = len(lat)`. -/
def recsDegen : List Rec :=
  [geoRec (some 0) (some 5), geoRec (some 0) none]

/-- Two records, one latitude-only and one longitude-only: no record has
both coordinates present, yet neither coordinate column is entirely
absent. -/
def recsNoBoth : List Rec :=
  [geoRec (some 0) none, geoRec none (some 0)]

/-- Two complete records with both coordinates present. -/
def recsGeoOk : List Rec :=
  [ ⟨"1", some ⟨2021, 3, 1, 0, 0, 0, 0⟩, "THEFT", "", some (3405/100), some (-11825/100), "", ""⟩
  , ⟨"2", some ⟨2021, 3, 2, 0, 0, 0, 0⟩, "ASSAULT", "", some (3406/100), some (-11826/100), "", ""⟩ ]

/-- The inactive filter set (no query-string filters supplied). -/
def noFilters : Filters :=
  ⟨none, none, none, none, none, none, none, none, none, none⟩

/-- The single-column raw table whose only cell is missing: its `Offense`
column maps to the category role and the one row's category cell is NaN. -/
def tblNan : RawTable :=
  ⟨["Offense"], [[Cell.missing]]⟩

/-- A one-row raw table whose date cell is the ambiguous string
`"01-02-2020"`. -/
def tblAmbig : RawTable :=
  ⟨["Date"], [[Cell.text "01-02-2020"]]⟩

/-- A two-row dataset for list/stats witnesses. -/
def recsDemo : List Rec :=
  [ ⟨"0", some ⟨2021, 3, 1, 0, 0, 0, 0⟩, "", "", none, none, "", ""⟩
  , ⟨"1", none, "X", "", none, none, "", ""⟩ ]

/-- A parser stub for witnesses that never parses anything. -/
def pNone : Cell → Option DateTime :=
  fun _ => none

/-- The `category=nan` filter set. -/
def catNanFilter : Filters :=
  ⟨none, some "nan", none, none, none, none, none, none, none, none⟩

/-- The `q=nan` text-search filter set. -/
def qNanFilter : Filters :=
  ⟨some "nan", none, none, none, none, none, none, none, none, none⟩

/-- A filter set whose text query is the invalid regex pattern `"("`. -/
def qBadFilter : Filters :=
  ⟨some "(", none, none, none, none, none, none, none, none, none⟩

/-- Two records sharing one timestamp (distinct ids): a sorting tie. -/
def recsTie : List Rec :=
  [ ⟨"A", some ⟨2021, 3, 1, 0, 0, 0, 0⟩, "", "", none, none, "", ""⟩
  , ⟨"B", some ⟨2021, 3, 1, 0, 0, 0, 0⟩, "", "", none, none, "", ""⟩ ]

/-- The four string-coerced roles of §3: the derived fields `_cat`,
`_desc`, `_city`, `_state`, all built by the same `astype(str)`-or-empty
rule of src/main.py lines 112-120 and 140-141. -/
inductive TextRole where
  | category
  | description
  | city
  | state
deriving DecidableEq, Repr

def TextRole.toRole : TextRole → Role
  | .category => Role.category
  | .description => Role.description
  | .city => Role.city
  | .state => Role.state

/-- The derived string field a text role populates. -/
def TextRole.get : TextRole → Rec → String
  | .category => fun r => r.category
  | .description => fun r => r.description
  | .city => fun r => r.city
  | .state => fun r => r.state

/-- The exact-match filter set querying the role's field for "nan"
(the description role has no exact-match filter in the API). -/
def exactNanFilter : TextRole → Option Filters
  | .category => some catNanFilter
  | .description => none
  | .city => some ⟨none, none, some "nan", none, none, none, none, none, none, none⟩
  | .state => some ⟨none, none, none, some "nan", none, none, none, none, none, none⟩

/-- The grouped-stats view keyed by the role's field, unfiltered (the
description role has no stats grouping in the API). -/
def statsForRole : TextRole → Option (List Rec → List (String × ℕ))
  | .category => some (statsCategory none none)
  | .description => none
  | .city => some (statsCity none none)
  | .state => some (statsState none none)

/-- The single-column raw table whose `City` column maps to the city
role and whose one row's city cell is NaN. -/
def tblNanCity : RawTable :=
  ⟨["City"], [[Cell.missing]]⟩

theorem dictLower_some {cols : List String} {n c : String} (h : dictLower cols n = some c) :
    c ∈ cols ∧ lowerStr c = n := by
  unfold dictLower at h
  have h1 := List.find?_some h
  have h2 := List.mem_of_find?_eq_some h
  rw [List.mem_reverse] at h2
  exact ⟨h2, by simpa using h1⟩

theorem dictLower_none {cols : List String} {n : String} (h : dictLower cols n = none) :
    ∀ c ∈ cols, lowerStr c ≠ n := by
  unfold dictLower at h
  rw [List.find?_eq_none] at h
  intro c hc
  simpa using h c (List.mem_reverse.mpr hc)

/-- The candidate `pick` selects, viewed case-insensitively, is the first
candidate matched by any column. -/
theorem pick_map_toLower (cols : List String) (cands : List String) :
    (pick cols cands).map lowerStr
      = cands.find? (fun n => cols.any (fun c => lowerStr c == n)) := by
  induction cands with
  | nil => rfl
  | cons n rest ih =>
    unfold pick
    cases h : dictLower cols n with
    | some c =>
      have hc := dictLower_some h
      have hany : cols.any (fun c2 => lowerStr c2 == n) = true :=
        List.any_eq_true.mpr ⟨c, hc.1, by simp [hc.2]⟩
      simp [List.find?_cons, hany, hc.2]
    | none =>
      have hno := dictLower_none h
      have hany : cols.any (fun c2 => lowerStr c2 == n) = false := by
        rw [List.any_eq_false]
        intro c hcmem
        simpa using hno c hcmem
      rw [List.find?_cons_of_neg _ (by simp [hany]), ← ih]

theorem pick_some_mem {cols : List String} : ∀ {cands : List String} {c : String},
    pick cols cands = some c → c ∈ cols := by
  intro cands
  induction cands with
  | nil => intro c h; exact absurd h (by simp [pick])
  | cons n rest ih =>
    intro c h
    unfold pick at h
    cases hd : dictLower cols n with
    | some c2 =>
      rw [hd] at h
      cases h
      exact (dictLower_some hd).1
    | none =>
      rw [hd] at h
      exact ih h

theorem any_of_perm {l l2 : List String} (h : l.Perm l2) (p : String → Bool) :
    l.any p = l2.any p := by
  rw [Bool.eq_iff_iff, List.any_eq_true, List.any_eq_true]
  constructor
  · rintro ⟨x, hx, hpx⟩
    exact ⟨x, h.mem_iff.mp hx, hpx⟩
  · rintro ⟨x, hx, hpx⟩
    exact ⟨x, h.mem_iff.mpr hx, hpx⟩

/-- C5: for every raw column list and every role, the Schema Mapper's
assignment is (case-insensitively) the first candidate in the role's
priority list matched by some column; it is unmapped exactly when no
candidate matches any column case-insensitively; a mapped column always
exists in the input; and the selected candidate does not depend on the
ordering of the raw columns. -/
theorem schema_mapper_first_candidate (cols cols2 : List String) (role : Role)
    (h : cols.Perm cols2) :
    ((autoMapColumns cols role).map lowerStr
        = (roleCandidates role).find? (fun n => cols.any (fun c => lowerStr c == n)))
      ∧ (autoMapColumns cols role = none ↔
          ∀ n ∈ roleCandidates role, ∀ c ∈ cols, lowerStr c ≠ n)
      ∧ (∀ c, autoMapColumns cols role = some c → c ∈ cols)
      ∧ ((autoMapColumns cols role).map lowerStr
          = (autoMapColumns cols2 role).map lowerStr) := by
  have key := pick_map_toLower cols (roleCandidates role)
  refine ⟨key, ?_, fun c hc => pick_some_mem hc, ?_⟩
  · constructor
    · intro hn n hncands c hc heq
      have hn2 : pick cols (roleCandidates role) = none := hn
      rw [hn2] at key
      exact List.find?_eq_none.mp key.symm n hncands
        (List.any_eq_true.mpr ⟨c, hc, by simp [heq]⟩)
    · intro hall
      cases hp : pick cols (roleCandidates role) with
      | none => exact hp
      | some c =>
        rw [hp] at key
        have key2 : (roleCandidates role).find?
            (fun n => cols.any (fun c2 => lowerStr c2 == n)) = some (lowerStr c) := by
          simpa using key.symm
        have hmem := List.mem_of_find?_eq_some key2
        obtain ⟨c2, hc2, he⟩ : ∃ x ∈ cols, lowerStr x = lowerStr c := by
          simpa using List.find?_some key2
        exact absurd he (hall _ hmem c2 hc2)
  · show (pick cols (roleCandidates role)).map lowerStr
      = (pick cols2 (roleCandidates role)).map lowerStr
    rw [pick_map_toLower, pick_map_toLower]
    congr 1
    funext n
    exact any_of_perm h _

/-- Witness for C5 at a concrete column list and its permutation. -/
theorem schema_mapper_first_candidate_witness :
    (autoMapColumns ["Offense", "Date"] Role.category).map lowerStr
      = (autoMapColumns ["Date", "Offense"] Role.category).map lowerStr :=
  (schema_mapper_first_candidate ["Offense", "Date"] ["Date", "Offense"] Role.category
    (by decide)).2.2.2

theorem length_filter_ts (l : List Rec) :
    (l.filter (fun r => r.timestamp.isSome)).length
      + (l.filter (fun r => r.timestamp.isNone)).length = l.length := by
  induction l with
  | nil => rfl
  | cons a t ih => cases h : a.timestamp <;> simp [List.filter_cons, h] <;> omega

theorem sortAsc_length (l : List Rec) : (sortAsc l).length = l.length := by
  unfold sortAsc
  rw [List.length_append, List.length_insertionSort]
  exact length_filter_ts l

theorem sortDesc_length (l : List Rec) : (sortDesc l).length = l.length := by
  unfold sortDesc
  rw [List.length_append, List.length_reverse, List.length_insertionSort,
    List.length_reverse]
  exact length_filter_ts l

theorem sortedFor_length (m : Rec → Bool) (f : Filters) (sort : String) (recs : List Rec) :
    (sortedFor m f sort recs).length = (recs.filter (matchesFilters m f)).length := by
  unfold sortedFor
  by_cases h1 : sort = "date"
  · simp [h1, sortAsc_length]
  · by_cases h2 : sort = "-date" <;> simp [h1, h2, sortAsc_length, sortDesc_length]

/-- C6, amended: whenever the text query (if any) compiles as a regular
expression — in particular whenever no text query is active —
`/incidents` reports a total equal to the number of records satisfying
the conjunction of all active filters (the text filter matching by
regular-expression search), independent of limit and offset; an offset
at or beyond that count yields an empty page; and a text query that
fails to compile raises out of the request, so no total is reported at
any limit or offset. -/
theorem list_total_independent (R : ReEngine) (f : Filters) (sort : String)
    (limit offset limit2 offset2 : ℕ) (recs : List Rec) (m : Rec → Bool)
    (hm : qCompile R f.q = some m) :
    (totalOf (incidents R f sort limit offset recs)
        = some ((recs.filter (matchesFilters m f)).length))
      ∧ (totalOf (incidents R f sort limit offset recs)
          = totalOf (incidents R f sort limit2 offset2 recs))
      ∧ ((recs.filter (matchesFilters m f)).length ≤ offset →
          pageOf (incidents R f sort limit offset recs) = some [])
      ∧ (∀ f2 : Filters, qCompile R f2.q = none →
          ∀ l2 o2 : ℕ, incidents R f2 sort l2 o2 recs = Except.error ApiError.reError) := by
  have hinc : ∀ l2 o2 : ℕ, incidents R f sort l2 o2 recs
      = Except.ok ((sortedFor m f sort recs).length,
          ((sortedFor m f sort recs).drop o2).take l2) := by
    intro l2 o2
    unfold incidents
    rw [hm]
  refine ⟨?_, ?_, ?_, ?_⟩
  · rw [hinc limit offset]
    show some (sortedFor m f sort recs).length = _
    rw [sortedFor_length]
  · rw [hinc limit offset, hinc limit2 offset2]
    rfl
  · intro h
    rw [hinc limit offset]
    show some (((sortedFor m f sort recs).drop offset).take limit) = some []
    rw [List.drop_eq_nil_of_le (by rw [sortedFor_length]; exact h), List.take_nil]
  · intro f2 h2 l2 o2
    unfold incidents
    rw [h2]

/-- Counterexample to C6 as stated: with the invalid regex pattern `"("`
as text query, `re.compile` raises `re.error` out of the request
(pandas `str.contains` defaults to `regex=True`), so `/incidents`
reports no total at all — in particular not the filtered record
count. -/
theorem list_total_cex :
    incidents reModel qBadFilter "-date" 10 0 recsDemo = Except.error ApiError.reError
      ∧ totalOf (incidents reModel qBadFilter "-date" 10 0 recsDemo) = none :=
  ⟨rfl, rfl⟩

/-- Witness for C6's amended theorem at a concrete store with no text
query active: the total is 2 and offset 5 yields an empty page. -/
theorem list_total_independent_witness :
    totalOf (incidents reModel noFilters "-date" 10 5 recsDemo) = some 2
      ∧ pageOf (incidents reModel noFilters "-date" 10 5 recsDemo) = some [] :=
  ⟨(list_total_independent reModel noFilters "-date" 10 5 3 0 recsDemo
      (fun _ => true) rfl).1.trans (by decide),
   (list_total_independent reModel noFilters "-date" 10 5 3 0 recsDemo
      (fun _ => true) rfl).2.2.1 (by decide)⟩

theorem isort_ts_all_isSome (l : List Rec) :
    ∀ r ∈ (l.filter (fun r => r.timestamp.isSome)).insertionSort tsLe,
      r.timestamp.isSome := by
  intro r hr
  rw [List.mem_insertionSort] at hr
  exact (List.mem_filter.mp hr).2

theorem isort_rev_ts_all_isSome (l : List Rec) :
    ∀ r ∈ (l.filter (fun r => r.timestamp.isSome)).reverse.insertionSort tsLe,
      r.timestamp.isSome := by
  intro r hr
  rw [List.mem_insertionSort, List.mem_reverse] at hr
  exact (List.mem_filter.mp hr).2

theorem filter_none_filter_some (l : List Rec) :
    (l.filter (fun r => r.timestamp.isNone)).filter (fun r => r.timestamp.isSome) = [] := by
  rw [List.filter_eq_nil_iff]
  intro a ha hsome2
  have h1 := (List.mem_filter.mp ha).2
  rw [Option.isNone_iff_eq_none] at h1
  rw [h1] at hsome2
  exact absurd hsome2 (by simp)

/-- Two sorted permutations of one another whose timestamp keys are
pairwise distinct coincide. -/
theorem sorted_unique_of_nodup_keys :
    ∀ l1 l2 : List Rec, l1.Perm l2 → l1.Sorted tsLe → l2.Sorted tsLe →
      (l1.map tsKey).Nodup → l1 = l2 := by
  intro l1
  induction l1 with
  | nil =>
    intro l2 hp _ _ _
    exact (hp.symm.eq_nil).symm
  | cons a t1 ih =>
    intro l2 hp hs1 hs2 hnd
    cases l2 with
    | nil => exact absurd hp.eq_nil (List.cons_ne_nil a t1)
    | cons b t2 =>
      have hcons1 := List.pairwise_cons.mp hs1
      have hcons2 := List.pairwise_cons.mp hs2
      have hab : a = b := by
        by_contra hne
        have hamem : a ∈ b :: t2 := hp.mem_iff.mp (List.mem_cons_self a t1)
        have hbmem : b ∈ a :: t1 := hp.mem_iff.mpr (List.mem_cons_self b t2)
        have ha2 : a ∈ t2 := by
          rcases List.mem_cons.mp hamem with h | h
          · exact absurd h hne
          · exact h
        have hb1 : b ∈ t1 := by
          rcases List.mem_cons.mp hbmem with h | h
          · exact absurd h.symm hne
          · exact h
        have h1 : tsKey a ≤ tsKey b := hcons1.1 b hb1
        have h2 : tsKey b ≤ tsKey a := hcons2.1 a ha2
        have hk : tsKey a = tsKey b := Nat.le_antisymm h1 h2
        have hmemmap : tsKey a ∈ t1.map tsKey := by
          rw [hk]
          exact List.mem_map_of_mem tsKey hb1
        rw [List.map_cons] at hnd
        exact (List.nodup_cons.mp hnd).1 hmemmap
      subst hab
      rw [List.map_cons] at hnd
      rw [ih t2 hp.cons_inv hcons1.2 hcons2.2 (List.nodup_cons.mp hnd).2]

/-- C7, amended: when the present timestamps of the filtered set are
pairwise distinct, sorting by `-date` and by `date` yield exactly
reversed orders on the present-timestamp records; records with tied
timestamps instead keep their original relative order in both directions
(pandas reverses the frame before and after its ascending sort), so on
ties the two directions agree rather than reverse — see the
counterexample; in both directions all absent-timestamp records appear
at the tail. -/
theorem sort_date_reversal (recs : List Rec)
    (hnod : ((recs.filter (fun r => r.timestamp.isSome)).map tsKey).Nodup) :
    ((sortDesc recs).filter (fun r => r.timestamp.isSome)
        = ((sortAsc recs).filter (fun r => r.timestamp.isSome)).reverse)
      ∧ (∃ pre, sortAsc recs = pre ++ recs.filter (fun r => r.timestamp.isNone)
          ∧ ∀ r ∈ pre, r.timestamp.isSome)
      ∧ (∃ pre, sortDesc recs = pre ++ recs.filter (fun r => r.timestamp.isNone)
          ∧ ∀ r ∈ pre, r.timestamp.isSome) := by
  unfold sortAsc sortDesc
  have hall1 := isort_ts_all_isSome recs
  have hall2 := isort_rev_ts_all_isSome recs
  refine ⟨?_, ⟨_, rfl, hall1⟩, ⟨_, rfl, fun r hr => hall2 r (List.mem_reverse.mp hr)⟩⟩
  rw [List.filter_append, List.filter_append, List.filter_reverse,
    List.filter_eq_self.mpr hall1, List.filter_eq_self.mpr hall2,
    filter_none_filter_some, List.append_nil, List.append_nil]
  have hperm : ((recs.filter (fun r => r.timestamp.isSome)).reverse.insertionSort tsLe).Perm
      ((recs.filter (fun r => r.timestamp.isSome)).insertionSort tsLe) :=
    ((List.perm_insertionSort tsLe _).trans (List.reverse_perm _)).trans
      (List.perm_insertionSort tsLe _).symm
  have hpermbase : ((recs.filter (fun r => r.timestamp.isSome)).reverse.insertionSort
      tsLe).Perm (recs.filter (fun r => r.timestamp.isSome)) :=
    (List.perm_insertionSort tsLe _).trans (List.reverse_perm _)
  have heq := sorted_unique_of_nodup_keys _ _ hperm
    (List.sorted_insertionSort tsLe _) (List.sorted_insertionSort tsLe _)
    ((hpermbase.map tsKey).nodup_iff.mpr hnod)
  rw [heq]

/-- Counterexample to C7 as stated: two records share one timestamp, and
`date` and `-date` return them in the same (original) order — pandas
sorts the reversed frame and reverses the result, preserving tie order
in both directions — so the two orders are not exact reverses. -/
theorem sort_date_reversal_cex :
    ((sortDesc recsTie).filter (fun r => r.timestamp.isSome)
        ≠ ((sortAsc recsTie).filter (fun r => r.timestamp.isSome)).reverse)
      ∧ ((sortDesc recsTie).filter (fun r => r.timestamp.isSome)
          = (sortAsc recsTie).filter (fun r => r.timestamp.isSome)) := by decide

/-- Witness for C7's amended theorem at a store whose present
timestamps are pairwise distinct. -/
theorem sort_date_reversal_witness :
    (sortDesc recsDemo).filter (fun r => r.timestamp.isSome)
        = ((sortAsc recsDemo).filter (fun r => r.timestamp.isSome)).reverse :=
  (sort_date_reversal recsDemo (by decide)).1

theorem length_filter_not {α : Type} (p : α → Bool) (l : List α) :
    (l.filter p).length + (l.filter (fun a => !(p a))).length = l.length := by
  induction l with
  | nil => rfl
  | cons a t ih => cases h : p a <;> simp [List.filter_cons, h] <;> omega

theorem dedupAux_nodup {κ : Type} [DecidableEq κ] (l : List κ) :
    ∀ acc : List κ, acc.Nodup →
      (l.foldl (fun acc k => if k ∈ acc then acc else acc ++ [k]) acc).Nodup := by
  induction l with
  | nil => intro acc h; exact h
  | cons a t ih =>
    intro acc h
    simp only [List.foldl_cons]
    by_cases ha : a ∈ acc
    · rw [if_pos ha]; exact ih acc h
    · rw [if_neg ha]
      refine ih _ (List.nodup_append.mpr ⟨h, List.nodup_singleton a, ?_⟩)
      intro x hx hxa
      rw [List.mem_singleton] at hxa
      exact ha (hxa ▸ hx)

theorem dedupAux_mem {κ : Type} [DecidableEq κ] (l : List κ) :
    ∀ (acc : List κ) (k : κ),
      (k ∈ l.foldl (fun acc k => if k ∈ acc then acc else acc ++ [k]) acc)
        ↔ (k ∈ acc ∨ k ∈ l) := by
  induction l with
  | nil => simp
  | cons a t ih =>
    intro acc k
    simp only [List.foldl_cons]
    by_cases ha : a ∈ acc
    · rw [if_pos ha, ih]
      constructor
      · rintro (h | h)
        exacts [Or.inl h, Or.inr (List.mem_cons_of_mem a h)]
      · rintro (h | h)
        · exact Or.inl h
        · rcases List.mem_cons.mp h with rfl | h2
          exacts [Or.inl ha, Or.inr h2]
    · rw [if_neg ha, ih]
      simp only [List.mem_append, List.mem_singleton, List.mem_cons]
      tauto

theorem dedupKeys_nodup {κ : Type} [DecidableEq κ] (l : List κ) : (dedupKeys l).Nodup :=
  dedupAux_nodup l [] List.nodup_nil

theorem dedupKeys_mem {κ : Type} [DecidableEq κ] (l : List κ) (k : κ) :
    k ∈ dedupKeys l ↔ k ∈ l := by
  rw [dedupKeys, dedupAux_mem]
  simp

/-- Grouping by any complete nodup key cover partitions the list, so the
group sizes sum to the list length. -/
theorem sum_counts_cover {α κ : Type} [DecidableEq κ] (key : α → κ) :
    ∀ K : List κ, K.Nodup → ∀ l : List α, (∀ a ∈ l, key a ∈ K) →
      (K.map (fun k => (l.filter (fun a => key a == k)).length)).sum = l.length := by
  intro K
  induction K with
  | nil =>
    intro _ l hcov
    cases l with
    | nil => rfl
    | cons a t => exact absurd (hcov a (List.mem_cons_self a t)) (List.not_mem_nil _)
  | cons k K ih =>
    intro hnd l hcov
    simp only [List.map_cons, List.sum_cons]
    have hnd2 := (List.nodup_cons.mp hnd).2
    have hknotin := (List.nodup_cons.mp hnd).1
    have hcov2 : ∀ a ∈ l.filter (fun a => !(key a == k)), key a ∈ K := by
      intro a ha
      have h1 := (List.mem_filter.mp ha).1
      have h2 := (List.mem_filter.mp ha).2
      rcases List.mem_cons.mp (hcov a h1) with h | h
      · rw [h] at h2
        simp at h2
      · exact h
    have hrec := ih hnd2 (l.filter (fun a => !(key a == k))) hcov2
    have hmaps : K.map (fun k2 =>
          ((l.filter (fun a => !(key a == k))).filter (fun a => key a == k2)).length)
        = K.map (fun k2 => (l.filter (fun a => key a == k2)).length) := by
      apply List.map_congr_left
      intro k2 hk2
      congr 1
      rw [List.filter_filter]
      apply List.filter_congr
      intro a _
      by_cases he : key a = k2
      · have hne : ¬(k2 = k) := by
          intro hh
          rw [hh] at hk2
          exact hknotin hk2
        simp [he, hne]
      · simp [he]
    rw [hmaps] at hrec
    rw [hrec]
    exact length_filter_not (fun a => key a == k) l

theorem sumCounts_countsBy {α κ : Type} [DecidableEq κ] (key : α → κ) (l : List α) :
    sumCounts (countsBy key l) = l.length := by
  unfold countsBy sumCounts
  rw [List.map_map]
  have hcov : ∀ a ∈ l, key a ∈ dedupKeys (l.map key) := by
    intro a ha
    rw [dedupKeys_mem]
    exact List.mem_map_of_mem key ha
  exact sum_counts_cover key (dedupKeys (l.map key)) (dedupKeys_nodup _) l hcov

theorem sumCounts_perm {κ : Type} {l l2 : List (κ × ℕ)} (h : l.Perm l2) :
    sumCounts l = sumCounts l2 := by
  unfold sumCounts
  exact (h.map (fun p => p.2)).sum_eq

theorem countsBy_mem {α κ : Type} [DecidableEq κ] {key : α → κ} {l : List α} {k : κ} {n : ℕ}
    (h : (k, n) ∈ countsBy key l) :
    n = (l.filter (fun a => key a == k)).length ∧ 1 ≤ n := by
  unfold countsBy at h
  obtain ⟨k2, hk2, he⟩ := List.mem_map.mp h
  obtain ⟨rfl, rfl⟩ : k2 = k ∧ (l.filter (fun a => key a == k2)).length = n := by
    constructor
    · exact congrArg Prod.fst he
    · exact congrArg Prod.snd he
  refine ⟨rfl, ?_⟩
  rw [dedupKeys_mem] at hk2
  obtain ⟨a, ha, hae⟩ := List.mem_map.mp hk2
  have hmem : a ∈ l.filter (fun a => key a == k2) :=
    List.mem_filter.mpr ⟨ha, by simp [hae]⟩
  exact List.length_pos.mpr (List.ne_nil_of_mem hmem)

theorem countsBy_mem_of_mem {α κ : Type} [DecidableEq κ] (key : α → κ) {l : List α} {a : α}
    (ha : a ∈ l) :
    (key a, (l.filter (fun x => key x == key a)).length) ∈ countsBy key l := by
  unfold countsBy
  exact List.mem_map_of_mem _ ((dedupKeys_mem _ _).mpr (List.mem_map_of_mem key ha))

theorem length_filterMap_ts (l : List Rec) :
    (l.filterMap (fun r => r.timestamp)).length
      = (l.filter (fun r => r.timestamp.isSome)).length := by
  induction l with
  | nil => rfl
  | cons a t ih => cases h : a.timestamp <;> simp [List.filterMap_cons, List.filter_cons, h, ih]

/-- C8: year buckets sum to the number of filtered records with a present
timestamp; category buckets sum to the full filtered count; and every
category bucket's count (the empty-string key included) is the number of
filtered records carrying exactly that derived category. -/
theorem stats_bucket_sums (sd ed : Option DateTime) (recs : List Rec) :
    (sumCounts (statsYear sd ed recs)
        = ((recs.filter (dateRangeFilt sd ed)).filter (fun r => r.timestamp.isSome)).length)
      ∧ (sumCounts (statsCategory sd ed recs) = (recs.filter (dateRangeFilt sd ed)).length)
      ∧ (∀ k n, (k, n) ∈ statsCategory sd ed recs →
          n = ((recs.filter (dateRangeFilt sd ed)).filter (fun r => r.category == k)).length
            ∧ 1 ≤ n) := by
  refine ⟨?_, ?_, ?_⟩
  · show sumCounts
        (if ((recs.filter (dateRangeFilt sd ed)).filterMap (fun r => r.timestamp)).isEmpty
          then []
          else ((countsBy (fun d => d.year)
              ((recs.filter (dateRangeFilt sd ed)).filterMap (fun r => r.timestamp))).insertionSort
            (fun a b => a.1 ≤ b.1))) = _
    by_cases hemp :
        ((recs.filter (dateRangeFilt sd ed)).filterMap (fun r => r.timestamp)).isEmpty
    · rw [if_pos hemp]
      rw [List.isEmpty_iff] at hemp
      have h0 : ((recs.filter (dateRangeFilt sd ed)).filterMap (fun r => r.timestamp)).length = 0 := by
        rw [hemp]; rfl
      rw [length_filterMap_ts] at h0
      rw [h0]
      rfl
    · rw [if_neg hemp]
      rw [sumCounts_perm (List.perm_insertionSort _ _), sumCounts_countsBy,
        length_filterMap_ts]
  · show sumCounts
        (((countsBy (fun r => r.category) (recs.filter (dateRangeFilt sd ed))).insertionSort
            (fun a b => a.1 ≤ b.1)).insertionSort (fun a b => b.2 ≤ a.2)) = _
    rw [sumCounts_perm (List.perm_insertionSort _ _),
      sumCounts_perm (List.perm_insertionSort _ _), sumCounts_countsBy]
  · intro k n hmem
    have hmem2 : (k, n) ∈ ((countsBy (fun r => r.category)
        (recs.filter (dateRangeFilt sd ed))).insertionSort
          (fun a b => a.1 ≤ b.1)).insertionSort (fun a b => b.2 ≤ a.2) := hmem
    rw [List.mem_insertionSort, List.mem_insertionSort] at hmem2
    exact countsBy_mem hmem2

/-- Witness for C8's per-bucket part at a concrete store: the
empty-string category bucket of `recsDemo` counts exactly its one
absent-category record. -/
theorem stats_bucket_sums_witness :
    1 = ((recsDemo.filter (dateRangeFilt none none)).filter
          (fun r => r.category == "")).length ∧ 1 ≤ 1 :=
  (stats_bucket_sums none none recsDemo).2.2 "" 1 (by
    have h : ("", 1) ∈ countsBy (fun r : Rec => r.category)
        (recsDemo.filter (dateRangeFilt none none)) := by decide
    show ("", 1) ∈ ((countsBy (fun r : Rec => r.category)
        (recsDemo.filter (dateRangeFilt none none))).insertionSort
          (fun a b => a.1 ≤ b.1)).insertionSort (fun a b => b.2 ≤ a.2)
    rw [List.mem_insertionSort, List.mem_insertionSort]
    exact h)

theorem filterMap_geo (recs : List Rec) :
    recs.filterMap (fun r =>
      match r.lat, r.lng with
      | some la, some lo =>
        some (⟨lo, la, r.id, r.timestamp, r.category, r.description, r.city, r.state⟩ : Feature)
      | _, _ => none) = geoFeatures recs := by
  induction recs with
  | nil => rfl
  | cons r t ih =>
    cases hla : r.lat <;> cases hlo : r.lng <;>
      simp [List.filterMap_cons, List.filter_cons, geoFeatures, featOf, bothPresent,
        hla, hlo, ih]

/-- C3, amended: geojson and heatmap fail with `NoGeoData` exactly when
every record's latitude is absent or every record's longitude is absent;
whenever at least one record has both coordinates present neither
operation fails, and geojson emits one point feature per record with both
coordinates present, silently skipping the rest. -/
theorem geo_nogeodata_condition (recs : List Rec) (bins : ℕ) :
    ((geojson recs = Except.error ApiError.noGeoData)
        ↔ ((∀ r ∈ recs, r.lat = none) ∨ (∀ r ∈ recs, r.lng = none)))
      ∧ ((heatmap bins recs = Except.error ApiError.noGeoData)
        ↔ ((∀ r ∈ recs, r.lat = none) ∨ (∀ r ∈ recs, r.lng = none)))
      ∧ ((∃ r ∈ recs, r.lat ≠ none ∧ r.lng ≠ none) →
          geojson recs = Except.ok (geoFeatures recs)
            ∧ ∃ out, heatmap bins recs = Except.ok out) := by
  have hcond : (recs.all (fun r => r.lat.isNone) || recs.all (fun r => r.lng.isNone)) = true
      ↔ ((∀ r ∈ recs, r.lat = none) ∨ (∀ r ∈ recs, r.lng = none)) := by
    simp [List.all_eq_true, Option.isNone_iff_eq_none]
  cases hc : (recs.all (fun r => r.lat.isNone) || recs.all (fun r => r.lng.isNone)) with
  | true =>
    have hprop := hcond.mp hc
    have hg : geojson recs = Except.error ApiError.noGeoData := by
      unfold geojson
      simp [hc]
    have hh : heatmap bins recs = Except.error ApiError.noGeoData := by
      unfold heatmap
      simp [hc]
    refine ⟨⟨fun _ => hprop, fun _ => hg⟩, ⟨fun _ => hprop, fun _ => hh⟩, ?_⟩
    rintro ⟨r, hr, hla, hlo⟩
    rcases hprop with h | h
    · exact absurd (h r hr) hla
    · exact absurd (h r hr) hlo
  | false =>
    have hprop : ¬((∀ r ∈ recs, r.lat = none) ∨ (∀ r ∈ recs, r.lng = none)) := by
      intro hp
      rw [hcond.mpr hp] at hc
      cases hc
    have hg : geojson recs = Except.ok (geoFeatures recs) := by
      unfold geojson
      rw [hc]
      simp only [Bool.false_eq_true, if_false]
      exact congrArg Except.ok (filterMap_geo recs)
    have hh : ∃ out, heatmap bins recs = Except.ok out := by
      unfold heatmap
      rw [hc]
      simp only [Bool.false_eq_true, if_false]
      split
      · exact ⟨_, rfl⟩
      · exact ⟨_, rfl⟩
      · split
        · exact ⟨_, rfl⟩
        · exact ⟨_, rfl⟩
    obtain ⟨out, hout⟩ := hh
    refine ⟨⟨fun h => ?_, fun hp => absurd hp hprop⟩,
      ⟨fun h => ?_, fun hp => absurd hp hprop⟩, fun _ => ⟨hg, out, hout⟩⟩
    · rw [hg] at h
      cases h
    · rw [hout] at h
      cases h

unseal Rat.add Rat.mul Rat.inv Rat.sub in
/-- Counterexample to C3 as stated: in `recsNoBoth` no record has both
coordinates present, yet neither geojson nor heatmap fails with
`NoGeoData` — geojson returns an empty feature collection and heatmap
returns a synthetic single-cell grid. -/
theorem geo_nogeodata_cex :
    (∀ r ∈ recsNoBoth, ¬(bothPresent r = true))
      ∧ okB (geojson recsNoBoth) = true
      ∧ okB (heatmap 5 recsNoBoth) = true := by decide

/-- Witness for C3's amended theorem on a store with two complete
records. -/
theorem geo_nogeodata_condition_witness :
    geojson recsGeoOk = Except.ok (geoFeatures recsGeoOk)
      ∧ ∃ out, heatmap 5 recsGeoOk = Except.ok out :=
  (geo_nogeodata_condition recsGeoOk 5).2.2
    ⟨_, List.mem_cons_self _ _, by decide, by decide⟩

unseal Rat.add Rat.mul Rat.inv Rat.sub in
/-- C1 evaluated at the failing input: `/heatmap` zips the independently
`dropna`-ed latitude and longitude columns, so on `recsZip` (one complete
record, one latitude-only, one longitude-only) the non-degenerate grid
branch returns two cells with total count 2, although only one record has
both coordinates present — contradicting the claimed equality of the cell
count sum with the number of records having both coordinates. -/
theorem heatmap_zip_mismatch :
    gridOf (heatmap 5 recsZip)
        = [⟨1/10, 1/10, 1⟩, ⟨9/10, 9/10, 1⟩]
      ∧ (recsZip.filter bothPresent).length = 1 := by decide

unseal Rat.add Rat.mul Rat.inv Rat.sub in
/-- C2 evaluated at the failing input: on `recsDegen` (records (0,5) and
(0,NaN)) the degenerate branch fires and returns the single cell (0,5)
with `count = len(lat) = 2`, although only one record has both
coordinates present — contradicting the claimed count. -/
theorem heatmap_degenerate_count :
    gridOf (heatmap 10 recsDegen) = [⟨0, 5, 2⟩]
      ∧ (recsDegen.filter bothPresent).length = 1 := by decide

theorem buildRecs_get? (P : Cell → Option DateTime) (sch : Role → Option String)
    (cols : List String) (da : Bool) :
    ∀ (rows : List (List Cell)) (idx i : ℕ),
      (buildRecs P sch cols da idx rows)[i]?
        = (rows[i]?).map (mkRec P sch cols da (idx + i)) := by
  intro rows
  induction rows with
  | nil => intro idx i; simp [buildRecs]
  | cons row rest ih =>
    intro idx i
    cases i with
    | zero => simp [buildRecs]
    | succ n =>
      show (mkRec P sch cols da idx row :: buildRecs P sch cols da (idx + 1) rest)[n + 1]?
          = ((row :: rest)[n + 1]?).map (mkRec P sch cols da (idx + (n + 1)))
      rw [List.getElem?_cons_succ, List.getElem?_cons_succ, ih (idx + 1) n]
      have he : idx + 1 + n = idx + (n + 1) := by omega
      rw [he]

theorem buildRecs_length (P : Cell → Option DateTime) (sch : Role → Option String)
    (cols : List String) (da : Bool) :
    ∀ (rows : List (List Cell)) (idx : ℕ),
      (buildRecs P sch cols da idx rows).length = rows.length := by
  intro rows
  induction rows with
  | nil => intro idx; rfl
  | cons row rest ih =>
    intro idx
    show (mkRec P sch cols da idx row :: buildRecs P sch cols da (idx + 1) rest).length = _
    rw [List.length_cons, ih (idx + 1), List.length_cons]

/-- C4 amended: when the date role is mapped and the column is not
entirely null, each row's derived timestamp equals the permissive bulk
parser's result on that row's raw date cell — per-row failures are
coerced to absent by `errors="coerce"`, so the nine-format-first
reference parse of §4.2 is never consulted on this path — and no row is
dropped.  (The `except` fallback to the per-row §4.2 parse exists in the
code but is unreachable, because the coercing bulk call returns NaT
instead of raising.) -/
theorem load_dates_bulk_coerce (P : Cell → Option DateTime) (t : RawTable) (c : String)
    (h1 : autoMapColumns t.cols Role.date = some c)
    (h2 : dateActiveTable t (autoMapColumns t.cols) = true) (i : ℕ) :
    (((loadStore P t)[i]?).map (fun r => r.timestamp)
        = (t.rows[i]?).map (fun row => P (cellAt t.cols row c)))
      ∧ (loadStore P t).length = t.rows.length := by
  constructor
  · rw [loadStore, buildRecs_get?]
    cases hr : t.rows[i]? with
    | none => rfl
    | some row => simp [mkRec, h1, h2]
  · rw [loadStore, buildRecs_length]

/-- Witness for C4's amended theorem at the concrete one-row table. -/
theorem load_dates_bulk_coerce_witness :
    (((loadStore pdModel tblAmbig)[0]?).map (fun r => r.timestamp)
        = (tblAmbig.rows[0]?).map (fun row => pdModel (cellAt tblAmbig.cols row "Date")))
      ∧ (loadStore pdModel tblAmbig).length = tblAmbig.rows.length :=
  load_dates_bulk_coerce pdModel tblAmbig "Date" (by decide) (by decide) 0

/-- Counterexample to C4 as stated: on the ambiguous raw date
"01-02-2020" the store derives the bulk permissive parse 2020-01-02
(month-first by pandas's default), while the §4.2 reference parse
`_maybe_parse_date` returns 2020-02-01 through the seventh format
`%d-%m-%Y`; the derived timestamp therefore differs from the §4.2
reference parse of the same raw value. -/
theorem load_dates_bulk_coerce_cex :
    ((loadStore pdModel tblAmbig)[0]?).map (fun r => r.timestamp)
        = some (some ⟨2020, 1, 2, 0, 0, 0, 0⟩)
      ∧ maybeParseDate pdModel (Cell.text "01-02-2020") = some ⟨2020, 2, 1, 0, 0, 0, 0⟩ := by
  decide

/-- C9: with the store unpopulated and the backing CSV absent, every
store-touching endpoint fails with `SourceNotFound` untransformed and
leaves the store state unchanged (still unpopulated), and a later request
with the source present rebuilds and memoizes the complete store. -/
theorem source_not_found_behaviour (P : Cell → Option DateTime) (R : ReEngine)
    (st : ServerState)
    (h : st.cached = none) (f : Filters) (sort : String) (lim off : ℕ)
    (byk : String) (sd ed : Option DateTime) (bins : ℕ) :
    columnsEp P none st = (Except.error ApiError.sourceNotFound, st)
      ∧ incidentsEp P R none st f sort lim off = (Except.error ApiError.sourceNotFound, st)
      ∧ statsEp P none st byk sd ed = (Except.error ApiError.sourceNotFound, st)
      ∧ geojsonEp P none st = (Except.error ApiError.sourceNotFound, st)
      ∧ heatmapEp P none st bins = (Except.error ApiError.sourceNotFound, st)
      ∧ (∀ t : RawTable, getDf P (some t) st
          = (Except.ok (loadStore P t), ⟨some (loadStore P t)⟩)) := by
  have hg : getDf P none st = (Except.error ApiError.sourceNotFound, st) := by
    unfold getDf
    rw [h]
  refine ⟨?_, ?_, ?_, ?_, ?_, fun t => ?_⟩
  · unfold columnsEp
    rw [hg]
  · unfold incidentsEp
    rw [hg]
  · unfold statsEp
    rw [hg]
  · unfold geojsonEp
    rw [hg]
  · unfold heatmapEp
    rw [hg]
  · unfold getDf
    rw [h]

/-- Witness for C9 at the concrete empty server state. -/
theorem source_not_found_behaviour_witness :
    incidentsEp pNone reModel none ⟨none⟩ noFilters "-date" 10 0
      = (Except.error ApiError.sourceNotFound, ⟨none⟩) :=
  (source_not_found_behaviour pNone reModel ⟨none⟩ rfl noFilters "-date" 10 0
    "category" none none 5).2.1

theorem cellAt_mem_or_missing (cols : List String) (row : List Cell) (c : String) :
    cellAt cols row c ∈ row ∨ cellAt cols row c = Cell.missing := by
  unfold cellAt
  cases hf : cols.findIdx? (fun c2 => c2 == c) with
  | none => exact Or.inr rfl
  | some i =>
    show row.getD i Cell.missing ∈ row ∨ row.getD i Cell.missing = Cell.missing
    rw [List.getD_eq_getElem?_getD]
    cases hg : row[i]? with
    | none => exact Or.inr rfl
    | some x =>
      exact Or.inl (List.getElem?_mem hg)

/-- Each text role's derived field in a built record is the string
coercion of its mapped cell, or the empty string when unmapped
(src/main.py lines 112-120, 140-141). -/
theorem textRole_get_mkRec (tr : TextRole) (P : Cell → Option DateTime)
    (sch : Role → Option String) (cols : List String) (da : Bool) (idx : ℕ)
    (row : List Cell) :
    tr.get (mkRec P sch cols da idx row)
      = match sch tr.toRole with
        | some c2 => pyStr (cellAt cols row c2)
        | none => "" := by
  cases tr <;> rfl

/-- A record carrying "nan" in the grouping field is counted, with a
positive count, under the "nan" key of the count-sorted grouping. -/
theorem nan_count_mem_sorted (key : Rec → String) {l : List Rec} {rec : Rec}
    (hmem : rec ∈ l) (hkey : key rec = "nan") :
    ∃ n, 1 ≤ n ∧ ("nan", n)
      ∈ ((countsBy key (l.filter (dateRangeFilt none none))).insertionSort
          (fun a b => a.1 ≤ b.1)).insertionSort (fun a b => b.2 ≤ a.2) := by
  have hfilt : l.filter (dateRangeFilt none none) = l :=
    List.filter_eq_self.mpr (fun a _ => rfl)
  have hcount : ("nan", (l.filter (fun x => key x == "nan")).length) ∈ countsBy key l := by
    simpa [hkey] using countsBy_mem_of_mem key hmem
  refine ⟨(l.filter (fun x => key x == "nan")).length, (countsBy_mem hcount).2, ?_⟩
  rw [List.mem_insertionSort, List.mem_insertionSort, hfilt]
  exact hcount

/-- C10: for each of the category, description, city and state roles,
when the role is mapped to an existing column, a row whose cell in that
column is missing derives the non-empty string "nan" (the string
coercion of NaN): the record matches the role's exact-match filter for
"nan" where one exists (category, city, state), matches the text search
"nan" where the role feeds it (description, category), and is counted
under the "nan" key of the role's stats grouping where one exists
(category, city, state); and with the role mapped no record of the
store derives the empty string for it (given `read_csv`'s guarantee
that no loaded cell stringifies to the empty string), so the empty
string arises only from an unmapped role. -/
theorem nan_string_coercion (P : Cell → Option DateTime) (t : RawTable) (c : String)
    (i : ℕ) (row : List Cell) (tr : TextRole)
    (hmap : autoMapColumns t.cols tr.toRole = some c)
    (hrow : t.rows[i]? = some row)
    (hcell : cellAt t.cols row c = Cell.missing)
    (hstr : ∀ r ∈ t.rows, ∀ cl ∈ r, pyStr cl ≠ "") :
    (∃ rec, (loadStore P t)[i]? = some rec
        ∧ tr.get rec = "nan"
        ∧ tr.get rec ≠ ""
        ∧ (∀ f0 ∈ exactNanFilter tr, matchesFilters (fun _ => true) f0 rec = true)
        ∧ ((tr = TextRole.category ∨ tr = TextRole.description) →
            qCompile reModel qNanFilter.q = some mNan ∧ mNan rec = true))
      ∧ (∀ sf ∈ statsForRole tr, ∃ n, 1 ≤ n ∧ ("nan", n) ∈ sf (loadStore P t))
      ∧ (∀ (j : ℕ) (rec2 : Rec), (loadStore P t)[j]? = some rec2 → tr.get rec2 ≠ "") := by
  have hget : (loadStore P t)[i]?
      = some (mkRec P (autoMapColumns t.cols) t.cols
          (dateActiveTable t (autoMapColumns t.cols)) i row) := by
    rw [loadStore, buildRecs_get?, hrow, Nat.zero_add]
    rfl
  have hmem : (mkRec P (autoMapColumns t.cols) t.cols
      (dateActiveTable t (autoMapColumns t.cols)) i row) ∈ loadStore P t :=
    List.getElem?_mem hget
  have hfield : tr.get (mkRec P (autoMapColumns t.cols) t.cols
      (dateActiveTable t (autoMapColumns t.cols)) i row) = "nan" := by
    rw [textRole_get_mkRec, hmap]
    show pyStr (cellAt t.cols row c) = "nan"
    rw [hcell]
    rfl
  have hcs : containsSub (lowerStr "nan").data (lowerStr "nan").data = true := by decide
  have hempty : ∀ (j : ℕ) (rec2 : Rec), (loadStore P t)[j]? = some rec2 →
      tr.get rec2 ≠ "" := by
    intro j rec2 hj
    rw [loadStore, buildRecs_get?] at hj
    cases hr2 : t.rows[j]? with
    | none =>
      rw [hr2] at hj
      cases hj
    | some row2 =>
      rw [hr2] at hj
      have hj2 : rec2 = mkRec P (autoMapColumns t.cols) t.cols
          (dateActiveTable t (autoMapColumns t.cols)) (0 + j) row2 :=
        (Option.some_inj.mp hj).symm
      rw [hj2, textRole_get_mkRec, hmap]
      show pyStr (cellAt t.cols row2 c) ≠ ""
      rcases cellAt_mem_or_missing t.cols row2 c with hm | hm
      · exact hstr row2 (List.getElem?_mem hr2) _ hm
      · rw [hm]
        decide
  cases tr with
  | category =>
    have hc2 : (mkRec P (autoMapColumns t.cols) t.cols
        (dateActiveTable t (autoMapColumns t.cols)) i row).category = "nan" := hfield
    refine ⟨⟨_, hget, hfield, by rw [hfield]; decide, ?_, ?_⟩, ?_, hempty⟩
    · intro f0 hf0
      have hf0b := Option.mem_some.mp hf0
      subst hf0b
      simp [matchesFilters, catNanFilter, strMatch, dateGe, dateLe, numGe, numLe, hc2]
    · intro _
      refine ⟨rfl, ?_⟩
      simp [mNan, hc2, hcs]
    · intro sf hsf
      have hsfb := Option.mem_some.mp hsf
      subst hsfb
      show ∃ n, 1 ≤ n ∧ ("nan", n)
        ∈ ((countsBy (fun r : Rec => r.category)
            ((loadStore P t).filter (dateRangeFilt none none))).insertionSort
              (fun a b => a.1 ≤ b.1)).insertionSort (fun a b => b.2 ≤ a.2)
      exact nan_count_mem_sorted (fun r : Rec => r.category) hmem hc2
  | description =>
    have hc2 : (mkRec P (autoMapColumns t.cols) t.cols
        (dateActiveTable t (autoMapColumns t.cols)) i row).description = "nan" := hfield
    refine ⟨⟨_, hget, hfield, by rw [hfield]; decide, ?_, ?_⟩, ?_, hempty⟩
    · intro f0 hf0
      exact absurd hf0 (Option.not_mem_none f0)
    · intro _
      refine ⟨rfl, ?_⟩
      simp [mNan, hc2, hcs]
    · intro sf hsf
      exact absurd hsf (Option.not_mem_none sf)
  | city =>
    have hc2 : (mkRec P (autoMapColumns t.cols) t.cols
        (dateActiveTable t (autoMapColumns t.cols)) i row).city = "nan" := hfield
    refine ⟨⟨_, hget, hfield, by rw [hfield]; decide, ?_, ?_⟩, ?_, hempty⟩
    · intro f0 hf0
      have hf0b := Option.mem_some.mp hf0
      subst hf0b
      simp [matchesFilters, strMatch, dateGe, dateLe, numGe, numLe, hc2]
    · intro hor
      rcases hor with h | h <;> exact absurd h (by decide)
    · intro sf hsf
      have hsfb := Option.mem_some.mp hsf
      subst hsfb
      show ∃ n, 1 ≤ n ∧ ("nan", n)
        ∈ ((countsBy (fun r : Rec => r.city)
            ((loadStore P t).filter (dateRangeFilt none none))).insertionSort
              (fun a b => a.1 ≤ b.1)).insertionSort (fun a b => b.2 ≤ a.2)
      exact nan_count_mem_sorted (fun r : Rec => r.city) hmem hc2
  | state =>
    have hc2 : (mkRec P (autoMapColumns t.cols) t.cols
        (dateActiveTable t (autoMapColumns t.cols)) i row).state = "nan" := hfield
    refine ⟨⟨_, hget, hfield, by rw [hfield]; decide, ?_, ?_⟩, ?_, hempty⟩
    · intro f0 hf0
      have hf0b := Option.mem_some.mp hf0
      subst hf0b
      simp [matchesFilters, strMatch, dateGe, dateLe, numGe, numLe, hc2]
    · intro hor
      rcases hor with h | h <;> exact absurd h (by decide)
    · intro sf hsf
      have hsfb := Option.mem_some.mp hsf
      subst hsfb
      show ∃ n, 1 ≤ n ∧ ("nan", n)
        ∈ ((countsBy (fun r : Rec => r.state)
            ((loadStore P t).filter (dateRangeFilt none none))).insertionSort
              (fun a b => a.1 ≤ b.1)).insertionSort (fun a b => b.2 ≤ a.2)
      exact nan_count_mem_sorted (fun r : Rec => r.state) hmem hc2

/-- Witness for C10, instantiated at the city role on the concrete
one-column table whose single city cell is missing. -/
theorem nan_string_coercion_witness :
    (∃ rec, (loadStore pNone tblNanCity)[0]? = some rec
        ∧ TextRole.city.get rec = "nan"
        ∧ TextRole.city.get rec ≠ ""
        ∧ (∀ f0 ∈ exactNanFilter TextRole.city,
            matchesFilters (fun _ => true) f0 rec = true)
        ∧ ((TextRole.city = TextRole.category ∨ TextRole.city = TextRole.description) →
            qCompile reModel qNanFilter.q = some mNan ∧ mNan rec = true))
      ∧ (∀ sf ∈ statsForRole TextRole.city,
          ∃ n, 1 ≤ n ∧ ("nan", n) ∈ sf (loadStore pNone tblNanCity))
      ∧ (∀ (j : ℕ) (rec2 : Rec), (loadStore pNone tblNanCity)[j]? = some rec2 →
          TextRole.city.get rec2 ≠ "") :=
  nan_string_coercion pNone tblNanCity "City" 0 [Cell.missing] TextRole.city
    (by decide) (by decide) (by decide) (by decide)

end SecureNav
